import Mathlib

/-!
Verification of the trust and session lifecycle core of a network device
fleet tool against its specification.  The development is a shallow
embedding of the Go sources: host address parsing, the trust on first use
host key store, SSH session creation (authentication method selection and
the host key callback), the update status parser, the apply and reconnect
loop, and the multi host command loops.  File system and network effects
are made explicit: the file store is a value, remote command results and
connection factory outcomes are parameters.
-/

namespace Autopilot

/-! ## Character and list helpers shared by the parsers -/

instance {ε α : Type} [DecidableEq ε] [DecidableEq α] : DecidableEq (Except ε α) := fun a b =>
  match a, b with
  | .error e1, .error e2 =>
    if h : e1 = e2 then .isTrue (by rw [h]) else .isFalse (by simp [h])
  | .ok v1, .ok v2 =>
    if h : v1 = v2 then .isTrue (by rw [h]) else .isFalse (by simp [h])
  | .error _, .ok _ => .isFalse (by simp)
  | .ok _, .error _ => .isFalse (by simp)

/-- Whitespace class of the Go regexp space escape: tab, newline, form
feed, carriage return and space. -/
def isGoWs (c : Char) : Bool :=
  c = ' ' || c = '\t' || c = '\n' || c = '\x0c' || c = '\r'

/-- Index of the last occurrence of a character, mirroring the byte scan
used by net.SplitHostPort. -/
def lastIndexOf : List Char → Char → Option Nat
  | [], _ => none
  | a :: t, c =>
    match lastIndexOf t c with
    | some i => some (i + 1)
    | none => if a = c then some 0 else none

/-- Index of the first occurrence of a character, mirroring strings.Index
restricted to a single character needle. -/
def firstIndexOf : List Char → Char → Option Nat
  | [], _ => none
  | a :: t, c => if a = c then some 0 else (firstIndexOf t c).map (· + 1)

/-- Splitting on a separator character, mirroring strings.Split: the
result always has one more part than there are separators. -/
def splitOnChar : List Char → Char → List (List Char)
  | [], _ => [[]]
  | a :: t, sep =>
    let r := splitOnChar t sep
    if a = sep then [] :: r
    else
      match r with
      | h :: t2 => (a :: h) :: t2
      | [] => [[a]]

/-! ## Translation of net.SplitHostPort and net.ParseIP -/

/-- Translation of net.SplitHostPort.  Returns none exactly where Go
returns an AddrError (missing port, too many colons, stray brackets). -/
def splitHostPort (s : List Char) : Option (List Char × List Char) :=
  match lastIndexOf s ':' with
  | none => none
  | some i =>
    match s with
    | '[' :: _ =>
      match firstIndexOf s ']' with
      | none => none
      | some e =>
        if e + 1 = s.length then none
        else if e + 1 = i then
          let host := (s.drop 1).take (e - 1)
          if (s.drop 1).contains '[' then none
          else if (s.drop (e + 1)).contains ']' then none
          else some (host, s.drop (i + 1))
        else none
    | _ =>
      let host := s.take i
      if host.contains ':' then none
      else if s.contains '[' || s.contains ']' then none
      else some (host, s.drop (i + 1))

/-- Numeric value of a decimal digit run. -/
def fieldVal (f : List Char) : Nat := f.foldl (fun a c => a * 10 + (c.toNat - 48)) 0

/-- Validity of one dotted decimal octet: nonempty, digits only, no
leading zero, value at most 255 (following netip parseIPv4). -/
def isIPv4Field (f : List Char) : Bool :=
  f ≠ [] && f.all (fun c => c.isDigit) && (f.length = 1 || f.head? ≠ some '0')
    && fieldVal f ≤ 255

/-- Translation of the IPv4 branch of net.ParseIP: exactly four dot
separated decimal octets. -/
def isIPv4 (s : List Char) : Bool :=
  let fields := splitOnChar s '.'
  fields.length = 4 && fields.all isIPv4Field

/-- Hexadecimal digit test, as in netip parseIPv6. -/
def isHexDigit (c : Char) : Bool :=
  c.isDigit || ('a' ≤ c && c ≤ 'f') || ('A' ≤ c && c ≤ 'F')

/-- Value of a hexadecimal digit. -/
def hexVal (c : Char) : Nat :=
  if c.isDigit then c.toNat - 48
  else if 'a' ≤ c && c ≤ 'f' then c.toNat - 87
  else c.toNat - 55

/-- Post loop checks of netip parseIPv6: all input consumed; a double
colon present exactly when fewer than eight groups were read. -/
def ipv6Finish (s : List Char) (i : Nat) (ell : Option Nat) : Bool :=
  s = [] && (if i < 16 then ell.isSome else ell.isNone)

/-- Main loop of netip parseIPv6, with fuel (one unit per group read;
each iteration consumes at least one character, so length based fuel is
always enough).  The state is the remaining input, the number of address
bytes already produced, and the position of the double colon if seen. -/
def ipv6Loop : Nat → List Char → Nat → Option Nat → Bool
  | 0, _, _, _ => false
  | fuel + 1, s, i, ell =>
    if 16 ≤ i then ipv6Finish s i ell
    else
      let hexs := s.takeWhile isHexDigit
      let off := hexs.length
      let acc := hexs.foldl (fun a c => a * 16 + hexVal c) 0
      if off = 0 then false
      else if 65535 < acc then false
      else
        match s.drop off with
        | '.' :: _ =>
          if ell.isNone && i ≠ 12 then false
          else if 16 < i + 4 then false
          else if isIPv4 s then ipv6Finish [] (i + 4) ell else false
        | [] => ipv6Finish [] (i + 2) ell
        | ':' :: rest2 =>
          match rest2 with
          | [] => false
          | ':' :: rest3 =>
            if ell.isSome then false
            else if rest3 = [] then ipv6Finish [] (i + 2) (some (i + 2))
            else ipv6Loop fuel rest3 (i + 2) (some (i + 2))
          | _ => ipv6Loop fuel rest2 (i + 2) ell
        | _ => false

/-- Translation of the IPv6 branch of net.ParseIP as a validity check.
A zone suffix is rejected because net.ParseIP rejects zones. -/
def isIPv6 (s : List Char) : Bool :=
  if s.contains '%' then false
  else
    match s with
    | ':' :: ':' :: rest =>
      if rest = [] then true
      else ipv6Loop (rest.length + 1) rest 0 (some 0)
    | _ => ipv6Loop (s.length + 1) s 0 none

/-- Translation of IsIPAddress from core, that is net.ParseIP viewed as a
predicate: the first special character decides between the IPv4 and IPv6
grammars, and a bare percent sign is an error. -/
def IsIPAddress (s : List Char) : Bool :=
  match s.find? (fun c => c = '.' || c = ':' || c = '%') with
  | some '.' => isIPv4 s
  | some ':' => isIPv6 s
  | some _ => false
  | none => false

/-! ## Translation of ParseHost from core/host.go -/

/-- HostInfo from core/host.go.  The Go field Type is called hostType
here because Type is reserved in Lean. -/
structure HostInfo where
  original : String
  hostType : String
  hostname : String
  port : String
  user : String
  shortName : String
  identityFile : String
  identitiesOnly : String
  forwardAgent : String
  hostkeyAlgorithms : String
  pubkeyAcceptedAlgorithms : String
deriving DecidableEq

/-- Port splitting step of ParseHost: when the input contains a colon and
net.SplitHostPort succeeds, the host part and port are taken from the
split; otherwise the whole input stands and the port stays at the
default 22. -/
def hostPortOf (host : String) : List Char × String :=
  if host.data.contains ':' then
    match splitHostPort host.data with
    | some (h, p) => (h, String.mk p)
    | none => (host.data, "22")
  else (host.data, "22")

/-- Short name of the FQDN branch: the prefix before the first dot when
that dot is not the first character, mirroring the idx greater than zero
guard in ParseHost. -/
def fqdnShortName (hostPart : List Char) : String :=
  match firstIndexOf hostPart '.' with
  | some idx => if 0 < idx then String.mk (hostPart.take idx) else String.mk hostPart
  | none => String.mk hostPart

/-- Translation of ParseHost from core/host.go. -/
def ParseHost (host : String) : HostInfo :=
  let hp := hostPortOf host
  let hostPart := hp.1
  let port := hp.2
  if IsIPAddress hostPart then
    { original := host, hostType := "ip", hostname := String.mk hostPart, port := port,
      user := "", shortName := String.mk hostPart, identityFile := "", identitiesOnly := "",
      forwardAgent := "", hostkeyAlgorithms := "", pubkeyAcceptedAlgorithms := "" }
  else if hostPart.contains '.' then
    { original := host, hostType := "fqdn", hostname := String.mk hostPart, port := port,
      user := "", shortName := fqdnShortName hostPart, identityFile := "", identitiesOnly := "",
      forwardAgent := "", hostkeyAlgorithms := "", pubkeyAcceptedAlgorithms := "" }
  else
    { original := host, hostType := "hostname", hostname := String.mk hostPart, port := port,
      user := "", shortName := String.mk hostPart, identityFile := "", identitiesOnly := "",
      forwardAgent := "", hostkeyAlgorithms := "", pubkeyAcceptedAlgorithms := "" }

/-! ## Base64 (encoding/base64 StdEncoding) -/

/-- Standard base64 alphabet. -/
def b64Alphabet : List Char :=
  "ABCDEFGHIJKLMNOPQRSTUVWXYZabcdefghijklmnopqrstuvwxyz0123456789+/".data

/-- Character for a six bit group. -/
def b64Char (n : Nat) : Char := b64Alphabet.getD n 'A'

/-- Six bit value of an alphabet character, none for characters outside
the alphabet. -/
def b64Val (c : Char) : Option Nat := firstIndexOf b64Alphabet c

/-- Translation of base64.StdEncoding.EncodeToString on byte lists, with
padding.  Bytes are reduced modulo 256 as Go bytes are. -/
def base64Encode : List Nat → List Char
  | [] => []
  | [a] =>
    let a := a % 256
    [b64Char (a / 4), b64Char (a % 4 * 16), '=', '=']
  | [a, b] =>
    let a := a % 256
    let b := b % 256
    [b64Char (a / 4), b64Char (a % 4 * 16 + b / 16), b64Char (b % 16 * 4), '=']
  | a :: b :: c :: t =>
    let a := a % 256
    let b := b % 256
    let c := c % 256
    b64Char (a / 4) :: b64Char (a % 4 * 16 + b / 16) :: b64Char (b % 16 * 4 + c / 64)
      :: b64Char (c % 64) :: base64Encode t

/-- Translation of base64.StdEncoding.DecodeString: four character
quanta, padding only in the final quantum, invalid characters rejected. -/
def base64Decode : List Char → Option (List Nat)
  | [] => some []
  | c1 :: c2 :: c3 :: c4 :: t =>
    match b64Val c1, b64Val c2 with
    | some v1, some v2 =>
      if c3 = '=' ∧ c4 = '=' ∧ t = [] then some [v1 * 4 + v2 / 16]
      else
        match b64Val c3 with
        | some v3 =>
          if c4 = '=' ∧ t = [] then some [v1 * 4 + v2 / 16, v2 % 16 * 16 + v3 / 4]
          else
            match b64Val c4 with
            | some v4 =>
              (base64Decode t).map
                (fun r => (v1 * 4 + v2 / 16) :: (v2 % 16 * 16 + v3 / 4) :: (v3 % 4 * 64 + v4) :: r)
            | none => none
        | none => none
    | _, _ => none
  | _ => none

/-! ## SHA-256 (crypto/sha256), FIPS 180-4 -/

/-- Addition modulo two to the thirty two. -/
def add32 (a b : Nat) : Nat := (a + b) % 4294967296

/-- Right rotation of a thirty two bit word. -/
def rotr32 (n x : Nat) : Nat := (x / 2 ^ n + x % 2 ^ n * 2 ^ (32 - n)) % 4294967296

/-- Bitwise complement of a thirty two bit word. -/
def not32 (x : Nat) : Nat := 4294967295 - x % 4294967296

/-- Choice function of the compression rounds. -/
def ch32 (x y z : Nat) : Nat := Nat.xor (Nat.land x y) (Nat.land (not32 x) z)

/-- Majority function of the compression rounds. -/
def maj32 (x y z : Nat) : Nat := Nat.xor (Nat.xor (Nat.land x y) (Nat.land x z)) (Nat.land y z)

/-- Big sigma zero. -/
def bsig0 (x : Nat) : Nat := Nat.xor (Nat.xor (rotr32 2 x) (rotr32 13 x)) (rotr32 22 x)

/-- Big sigma one. -/
def bsig1 (x : Nat) : Nat := Nat.xor (Nat.xor (rotr32 6 x) (rotr32 11 x)) (rotr32 25 x)

/-- Small sigma zero. -/
def ssig0 (x : Nat) : Nat := Nat.xor (Nat.xor (rotr32 7 x) (rotr32 18 x)) (x / 2 ^ 3)

/-- Small sigma one. -/
def ssig1 (x : Nat) : Nat := Nat.xor (Nat.xor (rotr32 17 x) (rotr32 19 x)) (x / 2 ^ 10)

/-- Round constants, in decimal. -/
def shaK : List Nat :=
  [1116352408, 1899447441, 3049323471, 3921009573, 961987163,
   1508970993, 2453635748, 2870763221, 3624381080, 310598401,
   607225278, 1426881987, 1925078388, 2162078206, 2614888103,
   3248222580, 3835390401, 4022224774, 264347078, 604807628,
   770255983, 1249150122, 1555081692, 1996064986, 2554220882,
   2821834349, 2952996808, 3210313671, 3336571891, 3584528711,
   113926993, 338241895, 666307205, 773529912, 1294757372,
   1396182291, 1695183700, 1986661051, 2177026350, 2456956037,
   2730485921, 2820302411, 3259730800, 3345764771, 3516065817,
   3600352804, 4094571909, 275423344, 430227734, 506948616,
   659060556, 883997877, 958139571, 1322822218, 1537002063,
   1747873779, 1955562222, 2024104815, 2227730452, 2361852424,
   2428436474, 2756734187, 3204031479, 3329325298]

/-- Initial hash value, in decimal. -/
def shaH0 : List Nat :=
  [1779033703, 3144134277, 1013904242, 2773480762, 1359893119,
   2600822924, 528734635, 1541459225]

/-- Message padding: append the one bit, zeros up to fifty six modulo
sixty four, then the bit length on eight bytes big endian. -/
def shaPad (bs : List Nat) : List Nat :=
  let l := bs.length
  let z := (119 - l % 64) % 64
  bs.map (· % 256) ++ [128] ++ List.replicate z 0
    ++ [l * 8 / 2 ^ 56 % 256, l * 8 / 2 ^ 48 % 256, l * 8 / 2 ^ 40 % 256, l * 8 / 2 ^ 32 % 256,
        l * 8 / 2 ^ 24 % 256, l * 8 / 2 ^ 16 % 256, l * 8 / 2 ^ 8 % 256, l * 8 % 256]

/-- Grouping into sixty four byte blocks. -/
def chunk64 : List Nat → List (List Nat)
  | [] => []
  | a :: t => (a :: t).take 64 :: chunk64 ((a :: t).drop 64)
termination_by bs => bs.length
decreasing_by
  simp only [List.length_drop, List.length_cons]
  omega

/-- Big endian words from a block. -/
def toWords : List Nat → List Nat
  | b0 :: b1 :: b2 :: b3 :: t =>
    (b0 % 256 * 16777216 + b1 % 256 * 65536 + b2 % 256 * 256 + b3 % 256) :: toWords t
  | _ => []

/-- Next word of the message schedule, from the sixteen most recent
words. -/
def nextWord (acc : List Nat) : Nat :=
  let n := acc.length
  add32 (add32 (ssig1 (acc.getD (n - 2) 0)) (acc.getD (n - 7) 0))
    (add32 (ssig0 (acc.getD (n - 15) 0)) (acc.getD (n - 16) 0))

/-- Message schedule: extend the sixteen block words to sixty four. -/
def schedule (ws : List Nat) : List Nat :=
  (List.range 48).foldl (fun acc _ => acc ++ [nextWord acc]) ws

/-- One compression round on the eight word state. -/
def shaRound (st : List Nat) (wk : Nat × Nat) : List Nat :=
  match st with
  | [a, b, c, d, e, f, g, h] =>
    let t1 := add32 (add32 (add32 h (bsig1 e)) (add32 (ch32 e f g) wk.2)) wk.1
    let t2 := add32 (bsig0 a) (maj32 a b c)
    [add32 t1 t2, a, b, c, add32 d t1, e, f, g]
  | other => other

/-- Processing of one block. -/
def processBlock (h : List Nat) (block : List Nat) : List Nat :=
  let ws := schedule (toWords block)
  let st := (ws.zip shaK).foldl shaRound h
  (h.zip st).map (fun p => add32 p.1 p.2)

/-- SHA-256 digest of a byte list, as thirty two bytes. -/
def sha256 (bs : List Nat) : List Nat :=
  let hfin := (chunk64 (shaPad bs)).foldl processBlock shaH0
  (hfin.map (fun w => [w / 2 ^ 24 % 256, w / 2 ^ 16 % 256, w / 2 ^ 8 % 256, w % 256])).flatten

/-! ## Public keys and the host key store (core/hostkey.go) -/

/-- An SSH public key as seen through the ssh.PublicKey interface: its
algorithm name (Type) and its wire format bytes (Marshal). -/
structure PublicKey where
  keyType : String
  wire : List Nat
deriving DecidableEq

/-- Modelled from the external golang.org/x/crypto/ssh contract:
ssh.ParsePublicKey reads the length prefixed algorithm name from the wire
bytes and yields a key whose Marshal returns exactly the input bytes.
The algorithm specific validation of the remaining bytes is part of the
out of scope crypto library and is not modelled. -/
def parsePublicKey (bs : List Nat) : Option PublicKey :=
  match bs with
  | b0 :: b1 :: b2 :: b3 :: rest =>
    let len := b0 % 256 * 16777216 + b1 % 256 * 65536 + b2 % 256 * 256 + b3 % 256
    if len = 0 ∨ rest.length < len then none
    else some ⟨String.mk ((rest.take len).map (fun b => Char.ofNat (b % 256))), bs⟩
  | _ => none

/-- Keys that satisfy the ssh.PublicKey interface invariant: parsing the
marshaled wire bytes gives the key back, and the wire is made of bytes. -/
def WellFormedKey (k : PublicKey) : Prop :=
  parsePublicKey k.wire = some k ∧ ∀ b ∈ k.wire, b < 256

instance (k : PublicKey) : Decidable (WellFormedKey k) := by
  unfold WellFormedKey; infer_instance

/-- Translation of GetHostKeyFingerprint: SHA256 prefix plus the base64
of the digest of the marshaled key. -/
def GetHostKeyFingerprint (key : PublicKey) : String :=
  "SHA256:" ++ String.mk (base64Encode (sha256 key.wire))

/-- HostKeyInfo from core/hostkey.go; capturedAt is kept as its RFC3339
rendering. -/
structure HostKeyInfo where
  host : String
  capturedAt : String
  algorithm : String
  fingerprint : String
  publicKey : String
deriving DecidableEq

/-- Content of a file in the store: a well formed host key record, or
bytes that do not unmarshal (external corruption). -/
inductive FileData where
  | json (info : HostKeyInfo)
  | corrupt (raw : String)
deriving DecidableEq

/-- The slice of the file system the store touches: the files present,
and the paths on which a write would fail (abstracting OS write errors). -/
structure FS where
  files : List (String × FileData)
  unwritable : List String
deriving DecidableEq

/-- File overwrite: any previous entry for the path is replaced. -/
def writeFile (files : List (String × FileData)) (path : String) (d : FileData) :
    List (String × FileData) :=
  (path, d) :: files.filter (fun p => p.1 ≠ path)

/-- Structured rendering of the error values built with fmt.Errorf in
core/hostkey.go; each constructor corresponds to one format string. -/
inductive HKError where
  | readFail (path : String)
  | unmarshalFail (path : String)
  | decodeFail
  | parseFail
  | loadFail (e : HKError)
  | mismatch (storedFp remoteFp : String)
  | writeFail (path : String)
  | notExist (path : String)
deriving DecidableEq

/-- Translation of HostKeyFilePath. -/
def HostKeyFilePath (host : String) : String :=
  (ParseHost host).shortName ++ ".hostkey"

/-- Translation of HostKeyExists: an os.Stat succeeds exactly when the
file is present. -/
def HostKeyExists (host : String) (fs : FS) : Bool :=
  (fs.files.lookup (HostKeyFilePath host)).isSome

/-- Translation of CaptureHostKey; time.Now is the explicit now
argument, and the write fails exactly on the unwritable paths. -/
def CaptureHostKey (now host : String) (key : PublicKey) (fs : FS) : Except HKError FS :=
  if fs.unwritable.contains (HostKeyFilePath host) then .error (.writeFail (HostKeyFilePath host))
  else .ok ⟨writeFile fs.files (HostKeyFilePath host)
    (.json { host := host, capturedAt := now, algorithm := key.keyType,
             fingerprint := GetHostKeyFingerprint key,
             publicKey := String.mk (base64Encode key.wire) }), fs.unwritable⟩

/-- Translation of LoadHostKey: read, unmarshal, base64 decode, parse. -/
def LoadHostKey (host : String) (fs : FS) : Except HKError PublicKey :=
  match fs.files.lookup (HostKeyFilePath host) with
  | none => .error (.readFail (HostKeyFilePath host))
  | some (.corrupt _) => .error (.unmarshalFail (HostKeyFilePath host))
  | some (.json info) =>
    match base64Decode info.publicKey.data with
    | none => .error .decodeFail
    | some bs =>
      match parsePublicKey bs with
      | none => .error .parseFail
      | some k => .ok k

/-- Translation of VerifyHostKey: load the stored key, then compare the
marshaled byte lists; on difference report both fingerprints. -/
def VerifyHostKey (host : String) (remoteKey : PublicKey) (fs : FS) : Except HKError Unit :=
  match LoadHostKey host fs with
  | .error e => .error (.loadFail e)
  | .ok storedKey =>
    if storedKey.wire = remoteKey.wire then .ok ()
    else .error (.mismatch (GetHostKeyFingerprint storedKey) (GetHostKeyFingerprint remoteKey))

/-- Translation of DeleteHostKey: an error when no file exists, removal
otherwise. -/
def DeleteHostKey (host : String) (fs : FS) : Except HKError FS :=
  let path := HostKeyFilePath host
  if HostKeyExists host fs then
    .ok ⟨fs.files.filter (fun p => p.1 ≠ path), fs.unwritable⟩
  else .error (.notExist path)

/-! ## Configuration, context and the TOFU host key callback
(core/common.go newSsh) -/

/-- Config from core/config.go. -/
structure Config where
  Hosts : List String
  User : String
  Debug : Bool
  SkipHostKeyCheck : Bool
deriving DecidableEq

/-- The calling context as the callback sees it: the configuration value
if one was stored, and the enrollment mode flag. -/
structure Ctx where
  config : Option Config
  enrollmentMode : Bool
deriving DecidableEq

/-- Translation of GetConfig from core/common.go: the lookup fails when
no configuration value is in the context. -/
def GetConfig (ctx : Ctx) : Except String Config :=
  match ctx.config with
  | some c => .ok c
  | none => .error "invalid config type"

/-- Modelled from the spec: the enrollment mode flag is a boolean
carried through the calling context (the IsEnrollmentMode accessor and
its context key are not among the provided sources; only its callers
are). -/
def IsEnrollmentMode (ctx : Ctx) : Bool := ctx.enrollmentMode

/-- Single quote character, used in the actionable error message. -/
def sq : String := String.mk ['\x27']

/-- Message of the fail closed branch of the host key callback. -/
def noKeyMsg (host : String) : String :=
  "no host key found for " ++ host ++ " - run " ++ sq ++ "enroll" ++ sq
    ++ " first or use " ++ sq ++ "--update-hostkey" ++ sq

/-- Errors the host key callback can return; each constructor
corresponds to one fmt.Errorf in the callback. -/
inductive CbError where
  | verifyFailed (e : HKError)
  | captureFailed (e : HKError)
  | notEnrolled (msg : String)
deriving DecidableEq

/-- First step of the host key callback: the skip flag holds when the
configuration lookup succeeds and SkipHostKeyCheck is set. -/
def skipFlag (ctx : Ctx) : Bool :=
  match GetConfig ctx with
  | .ok cfg => cfg.SkipHostKeyCheck
  | .error _ => false

/-- Translation of the HostKeyCallback built in newSsh: skip flag, then
verify against a key on file, then capture in enrollment mode, else fail
closed.  Acceptance returns the possibly extended file store. -/
def hostKeyCallback (ctx : Ctx) (host : String) (key : PublicKey) (now : String) (fs : FS) :
    Except CbError FS :=
  if skipFlag ctx then .ok fs
  else if HostKeyExists host fs then
    match VerifyHostKey host key fs with
    | .error e => .error (.verifyFailed e)
    | .ok _ => .ok fs
  else if IsEnrollmentMode ctx then
    match CaptureHostKey now host key fs with
    | .error e => .error (.captureFailed e)
    | .ok fs2 => .ok fs2
  else .error (.notEnrolled (noKeyMsg host))

/-! ## Authentication method selection (core/common.go newSsh, before
the dial) -/

/-- A private key signer as returned by parseSshPrivateKey, identified
by the public key type it exposes. -/
structure Signer where
  pubType : String
deriving DecidableEq

/-- An entry of the ssh.AuthMethod list. -/
inductive AuthMethod where
  | publicKeys (s : Signer)
  | password (p : String)
deriving DecidableEq

/-- Translation of the authentication method selection in newSsh.  The
outcome of parseSshPrivateKey (an external read of the identity file
plus the passphrase unlock) is the keyParse argument; it is consulted
only when a passphrase was supplied.  The four way branch mirrors the
source: key and password, key only, password only, nothing. -/
def selectAuthMethods (passphrase password : String) (keyParse : Except String Signer) :
    Except String (List AuthMethod) :=
  let step : Except String (Option Signer) :=
    if passphrase ≠ "" then
      match keyParse with
      | .error e => .error e
      | .ok s => .ok (some s)
    else .ok none
  match step with
  | .error e => .error e
  | .ok sshSigner =>
    match sshSigner with
    | some s =>
      if password ≠ "" then .ok [.publicKeys s, .password password]
      else .ok [.publicKeys s]
    | none =>
      if password ≠ "" then .ok [.password password]
      else .error "no authentication method provided (need password or SSH key with passphrase)"

/-- Result of newSsh up to and including the dial: the final outcome,
and whether a network dial was attempted.  The dial itself is an
external parameter receiving the selected authentication methods. -/
def newSshDial (passphrase password : String) (keyParse : Except String Signer)
    (dial : List AuthMethod → Except String Unit) :
    Except String Unit × Bool :=
  match selectAuthMethods passphrase password keyParse with
  | .error e => (.error e, false)
  | .ok ams => (dial ams, true)

/-! ## Update status parsing (updates getUpdateStatus) -/

/-- UpdateStatus from the updates command. -/
structure UpdateStatus where
  Installed : String
  Available : String
deriving DecidableEq

/-- Up to date comparison used by the callers of the status check. -/
def isUpToDate (s : UpdateStatus) : Bool := s.Installed = s.Available

/-- Match of the multiline anchored pattern consisting of optional
whitespace, a literal, optional whitespace and a second literal, at one
position.  This is the shape of both the error status and the missing
routerboard detectors. -/
def matchWsLitWsLit (lit1 lit2 : List Char) (cs : List Char) : Bool :=
  let c1 := cs.dropWhile isGoWs
  lit1.isPrefixOf c1 && lit2.isPrefixOf ((c1.drop lit1.length).dropWhile isGoWs)

/-- Whether a predicate holds at a position following a newline. -/
def anyAfterNewline (p : List Char → Bool) : List Char → Bool
  | [] => false
  | a :: t => (a = '\n' && p t) || anyAfterNewline p t

/-- Whether a predicate holds at some line start position (multiline
caret semantics: the string start or any position after a newline). -/
def anyAtLineStart (p : List Char → Bool) (cs : List Char) : Bool :=
  p cs || anyAfterNewline p cs

/-- Detector for an explicit vendor error status line, translating the
regexp match on a status ERROR line. -/
def containsErrorStatus (text : String) : Bool :=
  anyAtLineStart (matchWsLitWsLit "status:".data "ERROR".data) text.data

/-- Detector for the virtualized device marker, translating the regexp
match on a routerboard no line. -/
def containsRouterboardNo (text : String) : Bool :=
  anyAtLineStart (matchWsLitWsLit "routerboard:".data "no".data) text.data

/-- Trailing carriage returns stripped, as the end of line part of the
extraction pattern does. -/
def dropTrailingCR (l : List Char) : List Char :=
  (l.reverse.dropWhile (fun c => c = '\r')).reverse

/-- All captures of the status extraction pattern over the lines of the
output, in order, rendering the multiline anchored pattern of optional
whitespace, the status label, optional whitespace, a lazy nonempty
capture of non newline characters, and an end of line reachable through
carriage returns and newlines.  The whitespace after the label crosses
newlines, so a bare label captures the first following non whitespace
content, which lies on a later line and is consumed by that match; the
capture is that content up to its line end with trailing carriage
returns stripped (lazy capture against the end of line class).  When
only whitespace follows a label, the lazy capture backtracks onto the
last whitespace character that is not a newline.  The first state
argument is none while scanning for a label, and carries that
backtracking character while whitespace only lines follow a bare
label. -/
def statusScan : Option (Option Char) → List (List Char) → List (List Char)
  | some (some c), [] => [[c]]
  | _, [] => []
  | some lastWs, line :: rest =>
    let c1 := line.dropWhile isGoWs
    if c1 ≠ [] then dropTrailingCR c1 :: statusScan none rest
    else
      statusScan (some (match line.getLast? with | some c => some c | none => lastWs)) rest
  | none, line :: rest =>
    let l1 := line.dropWhile isGoWs
    if "status:".data.isPrefixOf l1 then
      let after := (l1.drop 7).dropWhile isGoWs
      if after ≠ [] then dropTrailingCR after :: statusScan none rest
      else statusScan (some ((l1.drop 7).getLast?)) rest
    else statusScan none rest

/-- Last capture of the extraction pattern over the output, mirroring
the use of the final submatch of FindAllStringSubmatch. -/
def lastStatusMatch (text : String) : Option String :=
  ((statusScan none (splitOnChar text.data '\n')).getLast?).map String.mk

/-- Token found at one offset of a line by a pattern of the form dot
star, literal, captured run of non whitespace: the literal must start at
the offset and be followed by at least one non whitespace character. -/
def lineTokenAt (lit l : List Char) (j : Nat) : Option (List Char) :=
  let r := l.drop j
  if lit.isPrefixOf r then
    let tok := (r.drop lit.length).takeWhile (fun c => !isGoWs c)
    if tok = [] then none else some tok
  else none

/-- Token selected inside one line: the greedy dot star prefix makes the
last occurrence in the line the one captured. -/
def lastTokenInLine (lit l : List Char) : Option (List Char) :=
  ((List.range (l.length + 1)).filterMap (lineTokenAt lit l)).getLast?

/-- First submatch of a version extraction pattern over the whole text:
the match cannot cross lines, so it lies in the first line containing a
valid occurrence. -/
def findVersionToken (lit : String) (text : String) : Option String :=
  (((splitOnChar text.data '\n').filterMap (lastTokenInLine lit.data)).head?).map String.mk

/-- Structured rendering of the error values of getUpdateStatus; each
constructor corresponds to one fmt.Errorf format string. -/
inductive UpdError where
  | sshFailed (msg : String)
  | vendorError (subSystem msg : String)
  | vendorErrorNoDetail (subSystem : String)
  | parseInstalled (subSystem : String)
  | parseAvailable (subSystem : String)
deriving DecidableEq

/-- Translation of getUpdateStatus.  The remote command result is the
runResult argument; the two extraction patterns are given by their
literal parts.  Order as in the source: vendor error status first, then
the optional routerboard absence short circuit, then the two version
tokens. -/
def getUpdateStatus (runResult : Except String String) (subSystem : String)
    (installedLit availableLit : String) (skipIfNoRouterBoard : Bool) :
    Except UpdError (Option UpdateStatus) :=
  match runResult with
  | .error e => .error (.sshFailed e)
  | .ok result =>
    if containsErrorStatus result then
      match lastStatusMatch result with
      | some m => .error (.vendorError subSystem m)
      | none => .error (.vendorErrorNoDetail subSystem)
    else if skipIfNoRouterBoard && containsRouterboardNo result then .ok none
    else
      match findVersionToken installedLit result with
      | none => .error (.parseInstalled subSystem)
      | some inst =>
        match findVersionToken availableLit result with
        | none => .error (.parseAvailable subSystem)
        | some avail => .ok (some ⟨inst, avail⟩)

/-- RouterOS instantiation of the status check, as in checkCurrentStatus
and applyComponentUpdate. -/
def routerOsStatus (runResult : Except String String) : Except UpdError (Option UpdateStatus) :=
  getUpdateStatus runResult "RouterOS" "installed-version: " "latest-version: " false

/-- RouterBoard instantiation of the status check. -/
def routerBoardStatus (runResult : Except String String) : Except UpdError (Option UpdateStatus) :=
  getUpdateStatus runResult "RouterBoard" "current-firmware: " "upgrade-firmware: " true

/-! ## Apply and reconnect (updates applyUpdate) -/

/-- A live session returned by the connection factory. -/
structure Session where
  id : Nat
deriving DecidableEq

/-- Fixed delay between reconnection attempts, in seconds. -/
def reconnectDelay : Nat := 10

/-- Observable events of the reconnect loop. -/
inductive TraceEv where
  | sleep (seconds : Nat)
  | attempt (idx : Nat) (ok : Bool)
deriving DecidableEq

/-- The reconnect loop of applyUpdate: sleep the fixed delay, call the
factory, loop on failure, return the session on success.  The factory is
indexed by the attempt number; fuel bounds the number of iterations the
embedding unfolds (the source loop is unbounded), and none as a result
means the loop is still running after that many attempts. -/
def reconnectLoop (factory : Nat → Except String Session) : Nat → Nat →
    List TraceEv × Option Session
  | 0, _ => ([], none)
  | fuel + 1, k =>
    match factory k with
    | .error _ =>
      let r := reconnectLoop factory fuel (k + 1)
      (TraceEv.sleep reconnectDelay :: TraceEv.attempt k false :: r.1, r.2)
    | .ok s => ([TraceEv.sleep reconnectDelay, TraceEv.attempt k true], some s)

/-- Translation of applyUpdate: run the update command (failure is
fatal), close the old session (errors swallowed), then loop reconnecting
forever.  An ok none result means the loop had not yet succeeded after
the given number of attempts. -/
def applyUpdate (runResult : Except String String) (factory : Nat → Except String Session)
    (fuel : Nat) : List TraceEv × Except String (Option Session) :=
  match runResult with
  | .error e => ([], .error ("failed to run SSH command: " ++ e))
  | .ok _ =>
    let r := reconnectLoop factory fuel 0
    (r.1, .ok r.2)

/-! ## Component update (updates applyComponentUpdate) -/

/-- Translation of applyComponentUpdate: apply and reconnect, then probe
the new status for display only.  The first component of the result is
none while the reconnect loop is still running; the second component
lists the warnings logged for failed post update probes. -/
def applyComponentUpdate (applyRun : Except String String)
    (factory : Nat → Except String Session) (fuel : Nat)
    (runOsAfter runBoardAfter : Except String String) (checkBoth : Bool) :
    Option (Except String Unit) × List String :=
  match (applyUpdate applyRun factory fuel).2 with
  | .error e => (some (.error e), [])
  | .ok none => (none, [])
  | .ok (some _) =>
    let osRes := routerOsStatus runOsAfter
    if !checkBoth then
      match osRes with
      | .ok _ => (some (.ok ()), [])
      | .error _ => (some (.ok ()), ["Failed to check RouterOS status after update"])
    else
      let boardRes := routerBoardStatus runBoardAfter
      let warns :=
        (match osRes with
         | .error _ => ["Failed to check RouterOS status after update"]
         | .ok _ => []) ++
        (match boardRes with
         | .error _ => ["Failed to check RouterBoard status after update"]
         | .ok _ => [])
      (some (.ok ()), warns)

/-! ## Multi host loops (updates command Action, enroll batch loop) -/

/-- Translation of the per host loop of the updates command Action: each
failing host is reported and iteration continues; the lastErr variable
is initialized to nil and never assigned, so it is returned unchanged. -/
def updatesHostLoop (runHost : String → Except String Unit) :
    List String → Except String Unit → Except String Unit × List String
  | [], lastErr => (lastErr, [])
  | h :: t, lastErr =>
    let rep : List String :=
      match runHost h with
      | .error _ => ["❓ " ++ h ++ " is unreachable"]
      | .ok _ => []
    let r := updatesHostLoop runHost t lastErr
    (r.1, rep ++ r.2)

/-- The updates command Action over its host list. -/
def updatesCommandAction (hosts : List String) (runHost : String → Except String Unit) :
    Except String Unit × List String :=
  updatesHostLoop runHost hosts (.ok ())

/-- Translation of the batch host key update loop of the enroll command:
success count, failure count, last error and printed lines, in host list
order. -/
def batchLoop (upd : String → Except String String) :
    List String → Nat → Nat → Option String → Nat × Nat × Option String × List String
  | [], s, f, le => (s, f, le, [])
  | h :: t, s, f, le =>
    match upd h with
    | .error e =>
      let r := batchLoop upd t s (f + 1) (some e)
      (r.1, r.2.1, r.2.2.1, ("❌ " ++ h ++ ": Host key update failed") :: r.2.2.2)
    | .ok fp =>
      let r := batchLoop upd t (s + 1) f le
      (r.1, r.2.1, r.2.2.1, ("✅ " ++ h ++ ": Host key updated (" ++ fp ++ ")") :: r.2.2.2)

/-- Final decision of the batch branch on the loop counters: all failed
and some failed are distinct errors; success only when no host failed. -/
def batchResult (r : Nat × Nat × Option String × List String) : Except String Unit :=
  if 0 < r.2.1 ∧ r.1 = 0 then .error "all host key updates failed"
  else if 0 < r.2.1 then .error ("some host key updates failed: " ++ (r.2.2.1.getD ""))
  else .ok ()

/-- Translation of the batch branch of the enroll command Action for the
update hostkey only flag. -/
def batchUpdateHostKeys (hosts : List String) (upd : String → Except String String) :
    Except String Unit × List String :=
  (batchResult (batchLoop upd hosts 0 0 none), (batchLoop upd hosts 0 0 none).2.2.2)

/-! ## Enrollment (enroll command) -/

/-- Final step of enroll: the post enroll configuration file. -/
def enrollPostStep (postScript : Except String Unit) : Except String Unit :=
  match postScript with
  | .error e => .error ("failed to apply post-enroll configuration file: " ++ e)
  | .ok _ => .ok ()

/-- Translation of enroll: connect, pre enroll script, identity set,
updates (explicitly non fatal), export and reconnect (unless skipped),
post enroll script.  Every step outcome is an explicit argument; the
first fatal failure stops the sequence with its wrapped error. -/
def enroll (connect1 : Except String Session) (preScript identity : Except String Unit)
    (skipUpdates : Bool) (updatesRes : Except String Unit) (skipExport : Bool)
    (exportRes : Except String Unit) (reconnect : Except String Session)
    (postScript : Except String Unit) : Except String Unit :=
  match connect1 with
  | .error e => .error ("failed to connect to router: " ++ e)
  | .ok _ =>
    match preScript with
    | .error e => .error ("failed to apply pre-enroll configuration file: " ++ e)
    | .ok _ =>
      match identity with
      | .error e => .error ("failed to set router identity: " ++ e)
      | .ok _ =>
        -- step 3: updates; a failure is logged and does not return
        let _ := if skipUpdates then none else
          match updatesRes with
          | .error e => some e
          | .ok _ => none
        if !skipExport then
          match exportRes with
          | .error e => .error ("failed to export configuration: " ++ e)
          | .ok _ =>
            match reconnect with
            | .error e => .error ("failed to reconnect after export: " ++ e)
            | .ok _ => enrollPostStep postScript
        else enrollPostStep postScript

/-- Translation of the tail of the enroll command Action on the single
host path: the result of enroll is tested in an if scoped variable that
shadows the outer err, the branches print the status lines, and the
return statement returns the outer err, which is nil at that point. -/
def enrollCommandAction (enrollResult : Except String Unit) : Except String Unit × List String :=
  match enrollResult with
  | .error _ => (.ok (), ["❌ Enrollment failed"])
  | .ok _ => (.ok (), ["✅ Enrollment completed successfully"])

/-! ## Supporting lemmas -/

/-- The port of a parsed host is the port computed by the split step. -/
theorem parseHost_port (h : String) : (ParseHost h).port = (hostPortOf h).2 := by
  unfold ParseHost
  by_cases h1 : IsIPAddress (hostPortOf h).1 <;>
    by_cases h2 : '.' ∈ (hostPortOf h).1 <;> simp [h1, h2]

/-- Decoding an alphabet character gives back its six bit value. -/
theorem b64Val_b64Char : ∀ v : Fin 64, b64Val (b64Char v.val) = some v.val := by decide

/-- Variant with a bound hypothesis. -/
theorem b64Val_b64Char_lt (v : Nat) (h : v < 64) : b64Val (b64Char v) = some v :=
  b64Val_b64Char ⟨v, h⟩

/-- Alphabet characters are never the padding character. -/
theorem b64Char_ne_pad : ∀ v : Fin 64, b64Char v.val ≠ '=' := by decide

/-- Variant with a bound hypothesis. -/
theorem b64Char_ne_pad_lt (v : Nat) (h : v < 64) : b64Char v ≠ '=' :=
  b64Char_ne_pad ⟨v, h⟩

/-- Decoding inverts encoding on byte lists. -/
theorem base64_roundtrip : ∀ bs : List Nat, (∀ b ∈ bs, b < 256) →
    base64Decode (base64Encode bs) = some bs := by
  intro bs
  induction bs using base64Encode.induct with
  | case1 => intro _; rfl
  | case2 a =>
    intro hbnd
    have ha : a < 256 := hbnd a (by simp)
    have h1 : a % 256 = a := Nat.mod_eq_of_lt ha
    have e1 := b64Val_b64Char_lt (a / 4) (by omega)
    have e2 := b64Val_b64Char_lt (a % 4 * 16) (by omega)
    have hx : a / 4 * 4 + a % 4 * 16 / 16 = a := by omega
    simp only [base64Encode, h1, base64Decode, e1, e2, and_self, if_true, hx]
  | case3 a b =>
    intro hbnd
    have ha : a < 256 := hbnd a (by simp)
    have hb : b < 256 := hbnd b (by simp)
    have h1 : a % 256 = a := Nat.mod_eq_of_lt ha
    have h2 : b % 256 = b := Nat.mod_eq_of_lt hb
    have e1 := b64Val_b64Char_lt (a / 4) (by omega)
    have e2 := b64Val_b64Char_lt (a % 4 * 16 + b / 16) (by omega)
    have e3 := b64Val_b64Char_lt (b % 16 * 4) (by omega)
    have n3 : (b64Char (b % 16 * 4) = '=') = False :=
      eq_false (b64Char_ne_pad_lt (b % 16 * 4) (by omega))
    have hx1 : a / 4 * 4 + (a % 4 * 16 + b / 16) / 16 = a := by omega
    have hx2 : (a % 4 * 16 + b / 16) % 16 * 16 + b % 16 * 4 / 4 = b := by omega
    simp only [base64Encode, h1, h2, base64Decode, e1, e2, e3, n3, false_and, if_false,
      and_self, if_true, hx1, hx2]
  | case4 a b c t ih =>
    intro hbnd
    have ha : a < 256 := hbnd a (by simp)
    have hb : b < 256 := hbnd b (by simp)
    have hc : c < 256 := hbnd c (by simp)
    have h1 : a % 256 = a := Nat.mod_eq_of_lt ha
    have h2 : b % 256 = b := Nat.mod_eq_of_lt hb
    have h3 : c % 256 = c := Nat.mod_eq_of_lt hc
    have iht := ih (fun x hx => hbnd x (by simp [hx]))
    have e1 := b64Val_b64Char_lt (a / 4) (by omega)
    have e2 := b64Val_b64Char_lt (a % 4 * 16 + b / 16) (by omega)
    have e3 := b64Val_b64Char_lt (b % 16 * 4 + c / 64) (by omega)
    have e4 := b64Val_b64Char_lt (c % 64) (by omega)
    have n3 : (b64Char (b % 16 * 4 + c / 64) = '=') = False :=
      eq_false (b64Char_ne_pad_lt (b % 16 * 4 + c / 64) (by omega))
    have n4 : (b64Char (c % 64) = '=') = False :=
      eq_false (b64Char_ne_pad_lt (c % 64) (by omega))
    have hx1 : a / 4 * 4 + (a % 4 * 16 + b / 16) / 16 = a := by omega
    have hx2 : (a % 4 * 16 + b / 16) % 16 * 16 + (b % 16 * 4 + c / 64) / 4 = b := by omega
    have hx3 : (b % 16 * 4 + c / 64) % 4 * 64 + c % 64 = c := by omega
    simp only [base64Encode, h1, h2, h3, base64Decode, e1, e2, e3, e4, n3, n4, false_and,
      if_false, iht, Option.map_some, hx1, hx2, hx3]
    rfl

/-- Encoding is injective on byte lists. -/
theorem base64Encode_inj (d1 d2 : List Nat) (h1 : ∀ b ∈ d1, b < 256) (h2 : ∀ b ∈ d2, b < 256)
    (he : base64Encode d1 = base64Encode d2) : d1 = d2 := by
  have r1 := base64_roundtrip d1 h1
  have r2 := base64_roundtrip d2 h2
  rw [he, r2] at r1
  exact (Option.some_inj.mp r1).symm

/-- Bytes of a digest are below 256. -/
theorem sha256_bytes_lt (bs : List Nat) : ∀ x ∈ sha256 bs, x < 256 := by
  intro x hx
  unfold sha256 at hx
  simp only [List.mem_flatten, List.mem_map] at hx
  obtain ⟨l, ⟨w, _, hw⟩, hxl⟩ := hx
  subst hw
  simp only [List.mem_cons, List.not_mem_nil, or_false] at hxl
  rcases hxl with h | h | h | h <;> subst h <;> omega

/-- One compression round preserves the state length. -/
theorem shaRound_length (st : List Nat) (wk : Nat × Nat) :
    (shaRound st wk).length = st.length := by
  unfold shaRound
  split <;> simp_all

/-- Folding rounds preserves the state length. -/
theorem foldl_shaRound_length (l : List (Nat × Nat)) : ∀ st : List Nat,
    (l.foldl shaRound st).length = st.length := by
  induction l with
  | nil => intro st; rfl
  | cons p t ih =>
    intro st
    simp only [List.foldl_cons, ih, shaRound_length]

/-- Block processing preserves the eight word state length. -/
theorem processBlock_length (h : List Nat) (b : List Nat) :
    (processBlock h b).length = min h.length h.length := by
  unfold processBlock
  simp [List.length_zip, foldl_shaRound_length]

/-- Folding block processing from the initial state keeps length eight. -/
theorem foldl_processBlock_length (blocks : List (List Nat)) : ∀ h : List Nat,
    (blocks.foldl processBlock h).length = h.length := by
  induction blocks with
  | nil => intro h; rfl
  | cons b t ih =>
    intro h
    simp only [List.foldl_cons, ih, processBlock_length, Nat.min_self]

/-- Flattening the four byte groups of a word list gives four bytes per
word. -/
theorem length_flatten_words (l : List Nat) :
    ((l.map (fun w => [w / 2 ^ 24 % 256, w / 2 ^ 16 % 256, w / 2 ^ 8 % 256, w % 256])).flatten).length
      = 4 * l.length := by
  induction l with
  | nil => rfl
  | cons w t ih =>
    simp only [List.map_cons, List.flatten_cons, List.length_append, ih, List.length_cons]
    simp only [List.length_cons, List.length_nil]
    omega

/-- A digest has thirty two bytes. -/
theorem sha256_length (bs : List Nat) : (sha256 bs).length = 32 := by
  unfold sha256
  rw [length_flatten_words, foldl_processBlock_length]
  rfl

/-- A false contains test means the element is absent. -/
theorem not_mem_of_contains_false {l : List String} {a : String}
    (h : l.contains a = false) : a ∉ l := by
  intro hm
  have h2 : l.contains a = true := List.elem_eq_true_of_mem hm
  rw [h] at h2
  exact Bool.false_ne_true h2

/-- Two fingerprints agree exactly when the digests of the wires agree. -/
theorem fingerprint_eq_iff (k1 k2 : PublicKey) :
    GetHostKeyFingerprint k1 = GetHostKeyFingerprint k2 ↔ sha256 k1.wire = sha256 k2.wire := by
  constructor
  · intro h
    unfold GetHostKeyFingerprint at h
    have hd := congrArg String.data h
    simp only [String.data_append] at hd
    have hd2 : base64Encode (sha256 k1.wire) = base64Encode (sha256 k2.wire) :=
      List.append_cancel_left hd
    exact base64Encode_inj _ _ (sha256_bytes_lt _) (sha256_bytes_lt _) hd2
  · intro h
    unfold GetHostKeyFingerprint
    rw [h]

/-- The file written by a successful capture. -/
theorem capture_ok_fs (now host : String) (k : PublicKey) (fs fs1 : FS)
    (hcap : CaptureHostKey now host k fs = .ok fs1) :
    fs1 = ⟨writeFile fs.files (HostKeyFilePath host)
      (.json ⟨host, now, k.keyType, GetHostKeyFingerprint k, String.mk (base64Encode k.wire)⟩),
      fs.unwritable⟩ := by
  unfold CaptureHostKey at hcap
  split at hcap
  · exact absurd hcap (by simp)
  · simp only [Except.ok.injEq] at hcap
    exact hcap.symm

/-- Looking up the path just written finds the new data. -/
theorem lookup_writeFile_self (files : List (String × FileData)) (path : String) (d : FileData) :
    (writeFile files path d).lookup path = some d := by
  simp [writeFile, List.lookup]

/-- Loading through any alias of the written path after a capture gives
the captured key back. -/
theorem load_after_capture (now host host2 : String) (k : PublicKey) (fs fs1 : FS)
    (hpath : HostKeyFilePath host2 = HostKeyFilePath host)
    (hwf : WellFormedKey k)
    (hcap : CaptureHostKey now host k fs = .ok fs1) :
    LoadHostKey host2 fs1 = .ok k := by
  obtain ⟨hparse, hbytes⟩ := hwf
  rw [capture_ok_fs now host k fs fs1 hcap]
  unfold LoadHostKey
  rw [hpath]
  rw [lookup_writeFile_self]
  have hdata : (String.mk (base64Encode k.wire)).data = base64Encode k.wire := rfl
  simp only [hdata, base64_roundtrip k.wire hbytes, hparse]

/-- Verification through any alias after a capture compares the
presented wire with the captured one. -/
theorem verify_after_capture (now host host2 : String) (k k2 : PublicKey) (fs fs1 : FS)
    (hpath : HostKeyFilePath host2 = HostKeyFilePath host)
    (hwf : WellFormedKey k)
    (hcap : CaptureHostKey now host k fs = .ok fs1) :
    VerifyHostKey host2 k2 fs1 =
      if k.wire = k2.wire then .ok ()
      else .error (.mismatch (GetHostKeyFingerprint k) (GetHostKeyFingerprint k2)) := by
  unfold VerifyHostKey
  rw [load_after_capture now host host2 k fs fs1 hpath hwf hcap]

/-! ## C5 -/

/-- C5 (amended): capture then verify with the same key succeeds; with a
key of different wire bytes it fails with a mismatch error carrying the
stored and the presented fingerprints, and those differ whenever the two
digests differ. -/
theorem C5_capture_verify :
    ∀ (now host : String) (k k2 : PublicKey) (fs fs1 : FS),
      WellFormedKey k →
      CaptureHostKey now host k fs = .ok fs1 →
      VerifyHostKey host k fs1 = .ok ()
      ∧ (k2.wire ≠ k.wire →
          VerifyHostKey host k2 fs1 =
            .error (.mismatch (GetHostKeyFingerprint k) (GetHostKeyFingerprint k2))
          ∧ (sha256 k2.wire ≠ sha256 k.wire →
              GetHostKeyFingerprint k ≠ GetHostKeyFingerprint k2)) := by
  intro now host k k2 fs fs1 hwf hcap
  refine ⟨?_, fun hne => ⟨?_, fun hsha => ?_⟩⟩
  · rw [verify_after_capture now host host k k fs fs1 rfl hwf hcap, if_pos rfl]
  · rw [verify_after_capture now host host k k2 fs fs1 rfl hwf hcap,
      if_neg (fun h => hne h.symm)]
  · intro hfp
    exact hsha ((fingerprint_eq_iff k2 k).mp hfp.symm)

/-- Concrete store produced by capturing a small key on an empty file
system; used by the witness. -/
def c5fs1 : FS :=
  ⟨writeFile [] (HostKeyFilePath "router1")
    (.json ⟨"router1", "t", "a", GetHostKeyFingerprint ⟨"a", [0, 0, 0, 1, 97]⟩,
      String.mk (base64Encode [0, 0, 0, 1, 97])⟩), []⟩

/-- Witness for C5 at concrete keys. -/
theorem C5_capture_verify_witness :
    VerifyHostKey "router1" (⟨"a", [0, 0, 0, 1, 97]⟩ : PublicKey) c5fs1 = .ok ()
    ∧ VerifyHostKey "router1" (⟨"b", [0, 0, 0, 1, 98]⟩ : PublicKey) c5fs1 =
        .error (.mismatch (GetHostKeyFingerprint ⟨"a", [0, 0, 0, 1, 97]⟩)
          (GetHostKeyFingerprint ⟨"b", [0, 0, 0, 1, 98]⟩)) := by
  have h := C5_capture_verify "t" "router1" ⟨"a", [0, 0, 0, 1, 97]⟩ ⟨"b", [0, 0, 0, 1, 98]⟩
    ⟨[], []⟩ c5fs1 (by decide) rfl
  exact ⟨h.1, (h.2 (by decide)).1⟩

/-- Wire family for the collision argument: well formed keys of
unboundedly many distinct wire lengths. -/
def c5wire (n : Nat) : List Nat := 0 :: 0 :: 0 :: 1 :: 97 :: List.replicate n 0

/-- Key family for the collision argument. -/
def c5key (n : Nat) : PublicKey := ⟨"a", c5wire n⟩

/-- Every member of the family is well formed. -/
theorem c5key_wf (n : Nat) : WellFormedKey (c5key n) := by
  constructor
  · show parsePublicKey (c5wire n) = some (c5key n)
    unfold parsePublicKey c5wire c5key
    simp [List.length_replicate]
    rfl
  · intro b hb
    unfold c5key c5wire at hb
    simp only [List.mem_cons, List.mem_replicate] at hb
    rcases hb with h | h | h | h | h | ⟨_, h⟩ <;> omega

/-- Elements read with a default below the byte bound stay below it. -/
theorem getD_lt_256 (l : List Nat) (h : ∀ x ∈ l, x < 256) (i : Nat) : l.getD i 0 < 256 := by
  rcases hlt : l[i]? with _ | x
  · simp [List.getD, hlt]
  · have hm : x ∈ l := List.getElem?_mem hlt
    have := h x hm
    simp [List.getD, hlt]
    omega

/-- By pigeonhole over the finite digest space, two members of the
family have different wires but equal fingerprints. -/
theorem c5_collision : ∃ m n : Nat, (c5key m).wire ≠ (c5key n).wire ∧
    GetHostKeyFingerprint (c5key m) = GetHostKeyFingerprint (c5key n) := by
  have hbnd : ∀ j : Nat, ∀ i : Nat, (sha256 (c5wire j)).getD i 0 < 256 :=
    fun j i => getD_lt_256 _ (sha256_bytes_lt _) i
  obtain ⟨m, n, hmn, hFeq⟩ :=
    Finite.exists_ne_map_eq_of_infinite
      (fun (j : Nat) => fun (i : Fin 32) => (⟨(sha256 (c5wire j)).getD i.val 0, hbnd j i.val⟩ : Fin 256))
  refine ⟨m, n, ?_, ?_⟩
  · intro hw
    apply hmn
    have hlen := congrArg List.length hw
    simp only [c5key, c5wire, List.length_cons, List.length_replicate] at hlen
    omega
  · have hsha : sha256 (c5wire m) = sha256 (c5wire n) := by
      apply List.ext_getElem (by rw [sha256_length, sha256_length])
      intro i hi1 hi2
      have hi : i < 32 := by rw [sha256_length] at hi1; exact hi1
      have hv := congrArg Fin.val (congrFun hFeq ⟨i, hi⟩)
      simp only at hv
      rw [List.getD_eq_getElem?_getD, List.getD_eq_getElem?_getD,
        List.getElem?_eq_getElem hi1, List.getElem?_eq_getElem hi2] at hv
      simpa using hv
    simp only [c5key, GetHostKeyFingerprint, hsha]

/-- C5 counterexample: the fingerprints in a mismatch payload do not
always differ, because the digest map is not injective on wires. -/
theorem C5_counterexample :
    ¬ ∀ (k k2 : PublicKey) (now host : String) (fs fs1 : FS),
        WellFormedKey k → WellFormedKey k2 → k2.wire ≠ k.wire →
        CaptureHostKey now host k fs = .ok fs1 →
        ∀ fp1 fp2, VerifyHostKey host k2 fs1 = .error (.mismatch fp1 fp2) → fp1 ≠ fp2 := by
  intro hall
  obtain ⟨m, n, hw, hfp⟩ := c5_collision
  have hcap : CaptureHostKey "t" "router1" (c5key m) ⟨[], []⟩ =
      .ok ⟨writeFile [] (HostKeyFilePath "router1")
        (.json ⟨"router1", "t", (c5key m).keyType, GetHostKeyFingerprint (c5key m),
          String.mk (base64Encode (c5key m).wire)⟩), []⟩ := rfl
  have hver := verify_after_capture "t" "router1" "router1" (c5key m) (c5key n) ⟨[], []⟩ _
    rfl (c5key_wf m) hcap
  rw [if_neg hw] at hver
  exact hall (c5key m) (c5key n) "t" "router1" ⟨[], []⟩ _ (c5key_wf m) (c5key_wf n)
    (fun h => hw h.symm) hcap _ _ hver hfp

/-! ## C10 -/

/-- C10 counterexample: two aliases with the same short name on which
capture writes different file contents (the record embeds the verbatim
host string). -/
theorem C10_counterexample :
    (ParseHost "router1").shortName = (ParseHost "router1.home.local").shortName
    ∧ CaptureHostKey "t" "router1" ⟨"a", [0, 0, 0, 1, 97]⟩ ⟨[], []⟩ ≠
        CaptureHostKey "t" "router1.home.local" ⟨"a", [0, 0, 0, 1, 97]⟩ ⟨[], []⟩ := by
  refine ⟨by decide, ?_⟩
  intro h
  simp only [CaptureHostKey, writeFile] at h
  simp at h

/-- C10 (amended): the path, existence, load, verify and delete
operations depend on the host only through the short name; capture
writes the same path for aliases of one short name, with records equal
except for the verbatim host field; and a key captured under one alias
verifies under any other. -/
theorem C10_short_name_aliasing :
    ∀ h1 h2 : String, (ParseHost h1).shortName = (ParseHost h2).shortName →
      HostKeyFilePath h1 = HostKeyFilePath h2
      ∧ (∀ fs, HostKeyExists h1 fs = HostKeyExists h2 fs)
      ∧ (∀ fs, LoadHostKey h1 fs = LoadHostKey h2 fs)
      ∧ (∀ fs k, VerifyHostKey h1 k fs = VerifyHostKey h2 k fs)
      ∧ (∀ fs, DeleteHostKey h1 fs = DeleteHostKey h2 fs)
      ∧ (∀ now k fs, fs.unwritable.contains (HostKeyFilePath h1) = false →
          CaptureHostKey now h1 k fs = .ok ⟨writeFile fs.files (HostKeyFilePath h1)
              (.json ⟨h1, now, k.keyType, GetHostKeyFingerprint k,
                String.mk (base64Encode k.wire)⟩), fs.unwritable⟩
          ∧ CaptureHostKey now h2 k fs = .ok ⟨writeFile fs.files (HostKeyFilePath h1)
              (.json ⟨h2, now, k.keyType, GetHostKeyFingerprint k,
                String.mk (base64Encode k.wire)⟩), fs.unwritable⟩)
      ∧ (∀ now k fs fs1, WellFormedKey k → CaptureHostKey now h1 k fs = .ok fs1 →
          VerifyHostKey h2 k fs1 = .ok ()) := by
  intro h1 h2 hshort
  have hpath : HostKeyFilePath h1 = HostKeyFilePath h2 := by
    unfold HostKeyFilePath
    rw [hshort]
  refine ⟨hpath, ?_, ?_, ?_, ?_, ?_, ?_⟩
  · intro fs
    unfold HostKeyExists
    rw [hpath]
  · intro fs
    unfold LoadHostKey
    rw [hpath]
  · intro fs k
    unfold VerifyHostKey LoadHostKey
    rw [hpath]
  · intro fs
    unfold DeleteHostKey HostKeyExists
    rw [hpath]
  · intro now k fs hwr
    constructor
    · unfold CaptureHostKey
      rw [if_neg (by simp [not_mem_of_contains_false hwr])]
    · unfold CaptureHostKey
      rw [← hpath, if_neg (by simp [not_mem_of_contains_false hwr])]
  · intro now k fs fs1 hwf hcap
    rw [verify_after_capture now h1 h2 k k fs fs1 hpath.symm hwf hcap, if_pos rfl]

/-- Witness for C10 at concrete aliases. -/
theorem C10_short_name_aliasing_witness :
    HostKeyFilePath "router1" = HostKeyFilePath "router1.home.local" :=
  (C10_short_name_aliasing "router1" "router1.home.local" (by decide)).1

/-! ## C7 -/

/-- C7: host address resolution is total (a function on all strings) and
assigns every input exactly one of the three kinds; the three example
inputs resolve as specified; the port defaults to 22 when the input has
no colon and also when the split of a colon bearing input fails. -/
theorem C7_host_resolution :
    (∀ h : String,
      ((ParseHost h).hostType = "ip" ∧ (ParseHost h).hostType ≠ "fqdn"
          ∧ (ParseHost h).hostType ≠ "hostname")
      ∨ ((ParseHost h).hostType = "fqdn" ∧ (ParseHost h).hostType ≠ "ip"
          ∧ (ParseHost h).hostType ≠ "hostname")
      ∨ ((ParseHost h).hostType = "hostname" ∧ (ParseHost h).hostType ≠ "ip"
          ∧ (ParseHost h).hostType ≠ "fqdn"))
    ∧ (ParseHost "192.168.1.1:2222").hostType = "ip"
    ∧ (ParseHost "192.168.1.1:2222").port = "2222"
    ∧ (ParseHost "192.168.1.1:2222").shortName = "192.168.1.1"
    ∧ (ParseHost "router1.home.local").hostType = "fqdn"
    ∧ (ParseHost "router1.home.local").shortName = "router1"
    ∧ (ParseHost "router1").hostType = "hostname"
    ∧ (ParseHost "router1").shortName = "router1"
    ∧ (∀ h : String, h.data.contains ':' = false → (ParseHost h).port = "22")
    ∧ (∀ h : String, splitHostPort h.data = none → (ParseHost h).port = "22") := by
  refine ⟨?_, by decide, by decide, by decide, by decide, by decide, by decide, by decide, ?_, ?_⟩
  · intro h
    by_cases h1 : IsIPAddress (hostPortOf h).1
    · exact Or.inl (by simp [ParseHost, h1])
    · by_cases h2 : '.' ∈ (hostPortOf h).1
      · exact Or.inr (Or.inl (by simp [ParseHost, h1, h2]))
      · exact Or.inr (Or.inr (by simp [ParseHost, h1, h2]))
  · intro h hc
    have hc2 : ¬ (':' ∈ h.data) := by simpa using hc
    rw [parseHost_port]
    simp [hostPortOf, hc2]
  · intro h hs
    rw [parseHost_port]
    by_cases hc : ':' ∈ h.data <;> simp [hostPortOf, hc, hs]

/-- Witness for C7 at a concrete input of the hypothesis bearing part. -/
theorem C7_host_resolution_witness : (ParseHost "router1").port = "22" :=
  C7_host_resolution.2.2.2.2.2.2.2.2.1 "router1" (by decide)

/-! ## C1 -/

/-- C1: the host key decision of the session factory follows the trust
on first use table exactly.  With the skip flag set the key is accepted
unconditionally; with a key file present acceptance holds exactly when
the stored key loads and byte matches, and a mismatch fails closed with
both fingerprints; with no key file, enrollment mode captures the key
(capture failure fails the connection); otherwise the connection fails
with the actionable message naming enrollment.  The final clause is the
complete acceptance characterization: no other acceptance path exists. -/
theorem C1_tofu_table :
    ∀ (ctx : Ctx) (host now : String) (key : PublicKey) (fs : FS),
      (skipFlag ctx = true → hostKeyCallback ctx host key now fs = .ok fs)
      ∧ (skipFlag ctx = false → HostKeyExists host fs = true →
          ((hostKeyCallback ctx host key now fs = .ok fs ↔
             ∃ stored, LoadHostKey host fs = .ok stored ∧ stored.wire = key.wire)
           ∧ (∀ stored, LoadHostKey host fs = .ok stored → stored.wire ≠ key.wire →
               hostKeyCallback ctx host key now fs =
                 .error (.verifyFailed (.mismatch (GetHostKeyFingerprint stored)
                   (GetHostKeyFingerprint key))))))
      ∧ (skipFlag ctx = false → HostKeyExists host fs = false → IsEnrollmentMode ctx = true →
          (∀ fs2, CaptureHostKey now host key fs = .ok fs2 →
              hostKeyCallback ctx host key now fs = .ok fs2)
          ∧ (∀ e, CaptureHostKey now host key fs = .error e →
              hostKeyCallback ctx host key now fs = .error (.captureFailed e)))
      ∧ (skipFlag ctx = false → HostKeyExists host fs = false → IsEnrollmentMode ctx = false →
          hostKeyCallback ctx host key now fs = .error (.notEnrolled (noKeyMsg host))
          ∧ List.IsInfix "enroll".data (noKeyMsg host).data)
      ∧ ((∃ fs2, hostKeyCallback ctx host key now fs = .ok fs2) ↔
          (skipFlag ctx = true
           ∨ (HostKeyExists host fs = true ∧ VerifyHostKey host key fs = .ok ())
           ∨ (HostKeyExists host fs = false ∧ IsEnrollmentMode ctx = true
              ∧ ∃ fs2, CaptureHostKey now host key fs = .ok fs2))) := by
  intro ctx host now key fs
  by_cases hskip : skipFlag ctx = true
  · refine ⟨fun _ => by simp [hostKeyCallback, hskip], ?_, ?_, ?_, ?_⟩
    · intro hf
      rw [hskip] at hf
      exact absurd hf (by simp)
    · intro hf
      rw [hskip] at hf
      exact absurd hf (by simp)
    · intro hf
      rw [hskip] at hf
      exact absurd hf (by simp)
    · simp [hostKeyCallback, hskip]
  · have hs : skipFlag ctx = false := by
      cases h : skipFlag ctx
      · rfl
      · exact absurd h hskip
    by_cases hex : HostKeyExists host fs = true
    · refine ⟨fun h => absurd hs (by simp [h]), fun _ _ => ⟨?_, ?_⟩,
        fun _ hf => absurd hex (by simp [hf]), fun _ hf => absurd hex (by simp [hf]), ?_⟩
      · -- acceptance iff load and byte match
        constructor
        · intro hok
          rcases hl : LoadHostKey host fs with e | stored
          · have hv : VerifyHostKey host key fs = .error (.loadFail e) := by
              simp [VerifyHostKey, hl]
            simp [hostKeyCallback, hs, hex, hv] at hok
          · by_cases hwire : stored.wire = key.wire
            · exact ⟨stored, rfl, hwire⟩
            · have hv : VerifyHostKey host key fs =
                  .error (.mismatch (GetHostKeyFingerprint stored) (GetHostKeyFingerprint key)) := by
                simp [VerifyHostKey, hl, hwire]
              simp [hostKeyCallback, hs, hex, hv] at hok
        · rintro ⟨stored, hl, hwire⟩
          have hv : VerifyHostKey host key fs = .ok () := by
            simp [VerifyHostKey, hl, hwire]
          simp [hostKeyCallback, hs, hex, hv]
      · intro stored hl hwire
        have hv : VerifyHostKey host key fs =
            .error (.mismatch (GetHostKeyFingerprint stored) (GetHostKeyFingerprint key)) := by
          simp [VerifyHostKey, hl, hwire]
        simp [hostKeyCallback, hs, hex, hv]
      · -- acceptance characterization when a key is on file
        constructor
        · rintro ⟨fs2, hok⟩
          rcases hv : VerifyHostKey host key fs with e | u
          · simp [hostKeyCallback, hs, hex, hv] at hok
          · exact Or.inr (Or.inl ⟨hex, rfl⟩)
        · rintro (h | ⟨_, hverok⟩ | ⟨hexf, _⟩)
          · exact absurd h hskip
          · exact ⟨fs, by simp [hostKeyCallback, hs, hex, hverok]⟩
          · rw [hex] at hexf
            exact absurd hexf (by simp)
    · have hexf : HostKeyExists host fs = false := by
        cases h : HostKeyExists host fs
        · rfl
        · exact absurd h hex
      by_cases henr : IsEnrollmentMode ctx = true
      · refine ⟨fun h => absurd hs (by simp [h]), fun _ hf => absurd hexf (by simp [hf]),
          fun _ _ _ => ⟨?_, ?_⟩, fun _ _ hf => absurd henr (by simp [hf]), ?_⟩
        · intro fs2 hcap
          simp [hostKeyCallback, hs, hexf, henr, hcap]
        · intro e hcap
          simp [hostKeyCallback, hs, hexf, henr, hcap]
        · constructor
          · rintro ⟨fs2, hok⟩
            rcases hcap : CaptureHostKey now host key fs with e | fs3
            · simp [hostKeyCallback, hs, hexf, henr, hcap] at hok
            · exact Or.inr (Or.inr ⟨hexf, henr, fs3, rfl⟩)
          · rintro (h | ⟨hex2, _⟩ | ⟨_, _, fs2, hcap⟩)
            · exact absurd h hskip
            · rw [hexf] at hex2
              exact absurd hex2 (by simp)
            · exact ⟨fs2, by simp [hostKeyCallback, hs, hexf, henr, hcap]⟩
      · have henf : IsEnrollmentMode ctx = false := by
          cases h : IsEnrollmentMode ctx
          · rfl
          · exact absurd h henr
        refine ⟨fun h => absurd hs (by simp [h]), fun _ hf => absurd hexf (by simp [hf]),
          fun _ _ hf => absurd henf (by simp [hf]), fun _ _ _ => ⟨?_, ?_⟩, ?_⟩
        · simp [hostKeyCallback, hs, hexf, henf]
        · show "enroll".data <:+: (noKeyMsg host).data
          refine ⟨("no host key found for " ++ host ++ " - run " ++ sq).data, (sq ++ " first or use " ++ sq ++ "--update-hostkey" ++ sq).data, ?_⟩
          simp [noKeyMsg, String.data_append]
        · constructor
          · rintro ⟨fs2, hok⟩
            simp [hostKeyCallback, hs, hexf, henf] at hok
          · rintro (h | ⟨hex2, _⟩ | ⟨_, henr2, _⟩)
            · exact absurd h hskip
            · rw [hexf] at hex2
              exact absurd hex2 (by simp)
            · rw [henf] at henr2
              exact absurd henr2 (by simp)

/-- Witness for C1: the skip branch at a concrete context and store. -/
theorem C1_tofu_table_witness :
    hostKeyCallback ⟨some ⟨[], "", false, true⟩, false⟩ "router1" ⟨"a", [0, 0, 0, 1, 97]⟩ "t"
      ⟨[], []⟩ = .ok ⟨[], []⟩ :=
  (C1_tofu_table ⟨some ⟨[], "", false, true⟩, false⟩ "router1" "t" ⟨"a", [0, 0, 0, 1, 97]⟩
    ⟨[], []⟩).1 (by decide)

/-! ## C8 -/

/-- C8: with neither credential, connection creation fails with the
authentication method error and no dial is attempted; a supplied
passphrase whose key cannot be read or unlocked is fatal, returned
immediately, again with no dial and no password fallback; with both a
usable key and a password, both methods are offered with the key
first. -/
theorem C8_auth_method_selection :
    (∀ (keyParse : Except String Signer) (dial : List AuthMethod → Except String Unit),
        newSshDial "" "" keyParse dial =
          (.error "no authentication method provided (need password or SSH key with passphrase)",
            false))
    ∧ (∀ (passphrase password e : String) (dial : List AuthMethod → Except String Unit),
        passphrase ≠ "" →
        newSshDial passphrase password (.error e) dial = (.error e, false))
    ∧ (∀ (passphrase password : String) (s : Signer), passphrase ≠ "" → password ≠ "" →
        selectAuthMethods passphrase password (.ok s) =
          .ok [.publicKeys s, .password password])
    ∧ (∀ (passphrase : String) (s : Signer), passphrase ≠ "" →
        selectAuthMethods passphrase "" (.ok s) = .ok [.publicKeys s]) := by
  refine ⟨?_, ?_, ?_, ?_⟩
  · intro keyParse dial
    simp [newSshDial, selectAuthMethods]
  · intro passphrase password e dial hp
    simp [newSshDial, selectAuthMethods, hp]
  · intro passphrase password s hp hpw
    simp [selectAuthMethods, hp, hpw]
  · intro passphrase s hp
    simp [selectAuthMethods, hp]

/-- Witness for C8: the fatal key unlock failure at concrete inputs. -/
theorem C8_auth_method_selection_witness :
    newSshDial "pp" "secret" (.error "failed to unlock") (fun _ => .ok ()) =
      (.error "failed to unlock", false) :=
  C8_auth_method_selection.2.1 "pp" "secret" "failed to unlock" (fun _ => .ok ())
    (by decide)

/-! ## C6 -/

/-- C6: the status check returns the two literal version strings when
both tokens are present and no error status line occurs, with up to date
exactly when they are equal; an error status line yields the vendor
reported error whose message is the last capture of the extraction
pattern (the concrete example carries timeout); a missing installed or
available token yields a parse error, distinct from the vendor reported
error.  The trailing concrete conjuncts pin the cross newline capture
semantics: a bare status label captures the following line, and a later
bare label makes its following line the last capture. -/
theorem C6_status_check :
    routerOsStatus (.ok "  installed-version: 7.11.3\n  latest-version: 7.12.1\n")
      = .ok (some ⟨"7.11.3", "7.12.1"⟩)
    ∧ isUpToDate ⟨"7.11.3", "7.12.1"⟩ = false
    ∧ (∀ v : String, isUpToDate ⟨v, v⟩ = true)
    ∧ (∀ s : UpdateStatus, isUpToDate s = true ↔ s.Installed = s.Available)
    ∧ (∀ (out sub il al : String) (skip : Bool) (i a : String),
        containsErrorStatus out = false →
        (skip && containsRouterboardNo out) = false →
        findVersionToken il out = some i → findVersionToken al out = some a →
        getUpdateStatus (.ok out) sub il al skip = .ok (some ⟨i, a⟩))
    ∧ (∀ (out sub il al : String) (skip : Bool) (m : String),
        containsErrorStatus out = true → lastStatusMatch out = some m →
        getUpdateStatus (.ok out) sub il al skip = .error (.vendorError sub m))
    ∧ routerOsStatus (.ok "status: ERROR: timeout\n")
        = .error (.vendorError "RouterOS" "ERROR: timeout")
    ∧ List.IsInfix "timeout".data "ERROR: timeout".data
    ∧ (∀ (out sub il al : String) (skip : Bool),
        containsErrorStatus out = false →
        (skip && containsRouterboardNo out) = false →
        findVersionToken il out = none →
        getUpdateStatus (.ok out) sub il al skip = .error (.parseInstalled sub))
    ∧ (∀ (out sub il al : String) (skip : Bool) (i : String),
        containsErrorStatus out = false →
        (skip && containsRouterboardNo out) = false →
        findVersionToken il out = some i → findVersionToken al out = none →
        getUpdateStatus (.ok out) sub il al skip = .error (.parseAvailable sub))
    ∧ (∀ sub sub2 m, UpdError.parseInstalled sub ≠ UpdError.vendorError sub2 m
        ∧ UpdError.parseAvailable sub ≠ UpdError.vendorError sub2 m)
    ∧ routerOsStatus (.ok "status:\nERROR: timeout\n")
        = .error (.vendorError "RouterOS" "ERROR: timeout")
    ∧ lastStatusMatch "status: ERROR: timeout\nstatus:\nfallback\n" = some "fallback"
    ∧ routerOsStatus (.ok "status: ERROR: timeout\nstatus:\nfallback\n")
        = .error (.vendorError "RouterOS" "fallback")
    ∧ routerOsStatus (.ok "status: checking\nstatus: ERROR: timeout\nstatus: done\n")
        = .error (.vendorError "RouterOS" "done") := by
  refine ⟨by decide, by decide, ?_, ?_, ?_, ?_, by decide, ⟨"ERROR: ".data, [], by decide⟩,
    ?_, ?_, ?_, by decide, by decide, by decide, by decide⟩
  · intro v
    simp [isUpToDate]
  · intro s
    simp [isUpToDate]
  · intro out sub il al skip i a herr hrb hi ha
    simp [getUpdateStatus, herr, hrb, hi, ha]
  · intro out sub il al skip m herr hlast
    simp [getUpdateStatus, herr, hlast]
  · intro out sub il al skip herr hrb hi
    simp [getUpdateStatus, herr, hrb, hi]
  · intro out sub il al skip i herr hrb hi ha
    simp [getUpdateStatus, herr, hrb, hi, ha]
  · intro sub sub2 m
    exact ⟨fun h => UpdError.noConfusion h, fun h => UpdError.noConfusion h⟩

/-- Witness for C6 at the concrete vendor output. -/
theorem C6_status_check_witness :
    getUpdateStatus (.ok "  installed-version: 7.11.3\n  latest-version: 7.12.1\n") "RouterOS"
      "installed-version: " "latest-version: " false = .ok (some ⟨"7.11.3", "7.12.1"⟩) :=
  C6_status_check.2.2.2.2.1 "  installed-version: 7.11.3\n  latest-version: 7.12.1\n"
    "RouterOS" "installed-version: " "latest-version: " false "7.11.3" "7.12.1"
    (by decide) (by decide) (by decide) (by decide)

/-! ## C4 -/

/-- The loop result is still none while every attempt fails. -/
theorem reconnectLoop_all_fail (factory : Nat → Except String Session) :
    ∀ (fuel k : Nat), (∀ j, j < fuel → ∃ e, factory (k + j) = .error e) →
      (reconnectLoop factory fuel k).2 = none := by
  intro fuel
  induction fuel with
  | zero => intro k _; rfl
  | succ n ih =>
    intro k h
    obtain ⟨e, he⟩ := h 0 (by omega)
    rw [Nat.add_zero] at he
    simp only [reconnectLoop, he]
    exact ih (k + 1) (fun j hj => by
      obtain ⟨e2, he2⟩ := h (j + 1) (by omega)
      exact ⟨e2, by rw [← he2]; congr 1; omega⟩)

/-- Every sleep event of the loop carries the fixed delay. -/
theorem reconnectLoop_sleep_const (factory : Nat → Except String Session) :
    ∀ (fuel k d : Nat), TraceEv.sleep d ∈ (reconnectLoop factory fuel k).1 →
      d = reconnectDelay := by
  intro fuel
  induction fuel with
  | zero => intro k d h; simp [reconnectLoop] at h
  | succ n ih =>
    intro k d h
    rcases hf : factory k with e | s <;>
      simp only [reconnectLoop, hf, List.mem_cons, List.not_mem_nil, or_false] at h
    · rcases h with h | h | h
      · exact TraceEv.sleep.inj h
      · exact absurd h (by simp)
      · exact ih (k + 1) d h
    · rcases h with h | h
      · exact TraceEv.sleep.inj h
      · exact absurd h (by simp)

/-- C4: an apply command success followed by a factory failing twice
then succeeding yields a live session after exactly three factory
invocations, each attempt preceded by exactly one fixed delay sleep, the
trace being sleep, failed attempt zero, sleep, failed attempt one,
sleep, successful attempt two; the loop never stops while the factory
keeps failing, and every sleep uses the one constant delay. -/
theorem C4_apply_reconnect :
    (∀ (factory : Nat → Except String Session) (out : String) (s : Session) (e0 e1 : String),
      factory 0 = .error e0 → factory 1 = .error e1 → factory 2 = .ok s →
      applyUpdate (.ok out) factory 3 =
        ([.sleep reconnectDelay, .attempt 0 false, .sleep reconnectDelay, .attempt 1 false,
          .sleep reconnectDelay, .attempt 2 true], .ok (some s)))
    ∧ (∀ (factory : Nat → Except String Session) (out : String) (fuel : Nat),
        (∀ k, k < fuel → ∃ e, factory k = .error e) →
        (applyUpdate (.ok out) factory fuel).2 = .ok none)
    ∧ (∀ (factory : Nat → Except String Session) (fuel k d : Nat),
        TraceEv.sleep d ∈ (reconnectLoop factory fuel k).1 → d = reconnectDelay) := by
  refine ⟨?_, ?_, ?_⟩
  · intro factory out s e0 e1 h0 h1 h2
    simp [applyUpdate, reconnectLoop, h0, h1, h2]
  · intro factory out fuel h
    have := reconnectLoop_all_fail factory fuel 0 (fun j hj => by simpa using h j hj)
    simp [applyUpdate, this]
  · exact reconnectLoop_sleep_const

/-- Factory failing exactly twice, for the witness. -/
def c4factory : Nat → Except String Session :=
  fun k => if k < 2 then .error "connection refused" else .ok ⟨7⟩

/-- Witness for C4 at a concrete factory. -/
theorem C4_apply_reconnect_witness :
    applyUpdate (.ok "out") c4factory 3 =
      ([.sleep reconnectDelay, .attempt 0 false, .sleep reconnectDelay, .attempt 1 false,
        .sleep reconnectDelay, .attempt 2 true], .ok (some ⟨7⟩)) :=
  C4_apply_reconnect.1 c4factory "out" ⟨7⟩ "connection refused" "connection refused" rfl rfl rfl

/-! ## C9 -/

/-- C9: once the apply command has succeeded and a session has been
reestablished, the component update returns success whatever the post
update status probes return; probe failures only add warnings. -/
theorem C9_post_probe_nonfatal :
    ∀ (applyRun : Except String String) (factory : Nat → Except String Session) (fuel : Nat)
      (runOs runBoard : Except String String) (checkBoth : Bool) (s : Session),
      (applyUpdate applyRun factory fuel).2 = .ok (some s) →
      (applyComponentUpdate applyRun factory fuel runOs runBoard checkBoth).1 =
        some (.ok ()) := by
  intro applyRun factory fuel runOs runBoard checkBoth s happly
  unfold applyComponentUpdate
  rw [happly]
  rcases hos : routerOsStatus runOs with e | v <;> cases checkBoth <;> simp [hos]

/-- Witness for C9 with failing probes after a successful update. -/
theorem C9_post_probe_nonfatal_witness :
    (applyComponentUpdate (.ok "ok") (fun _ => .ok ⟨1⟩) 1 (.error "probe down")
      (.error "probe down") true).1 = some (.ok ()) :=
  C9_post_probe_nonfatal (.ok "ok") (fun _ => .ok ⟨1⟩) 1 (.error "probe down")
    (.error "probe down") true ⟨1⟩ rfl

/-! ## C2 -/

/-- The updates loop returns its lastErr argument unchanged. -/
theorem updatesHostLoop_fst (runHost : String → Except String Unit) :
    ∀ (hosts : List String) (lastErr : Except String Unit),
      (updatesHostLoop runHost hosts lastErr).1 = lastErr := by
  intro hosts
  induction hosts with
  | nil => intro lastErr; rfl
  | cons h t ih =>
    intro lastErr
    simp only [updatesHostLoop, ih]

/-- The updates loop reports each failing host once, in list order. -/
theorem updatesHostLoop_snd (runHost : String → Except String Unit) :
    ∀ (hosts : List String) (lastErr : Except String Unit),
      (updatesHostLoop runHost hosts lastErr).2 =
        hosts.filterMap (fun h =>
          match runHost h with
          | .error _ => some ("❓ " ++ h ++ " is unreachable")
          | .ok _ => none) := by
  intro hosts
  induction hosts with
  | nil => intro lastErr; rfl
  | cons h t ih =>
    intro lastErr
    rcases hr : runHost h with e | u <;>
      simp [updatesHostLoop, hr, ih, List.filterMap_cons]

/-- Failing host predicate of the batch loop. -/
def updFails (upd : String → Except String String) (h : String) : Bool :=
  match upd h with
  | .error _ => true
  | .ok _ => false

/-- The batch loop failure count adds one per failing host. -/
theorem batchLoop_fail_count (upd : String → Except String String) :
    ∀ (hosts : List String) (s f : Nat) (le : Option String),
      (batchLoop upd hosts s f le).2.1 = f + hosts.countP (updFails upd) := by
  intro hosts
  induction hosts with
  | nil => intro s f le; simp [batchLoop]
  | cons h t ih =>
    intro s f le
    rcases hr : upd h with e | fp <;>
      (simp [batchLoop, hr, ih, List.countP_cons, updFails]; try omega)

/-- The batch loop success count adds one per succeeding host. -/
theorem batchLoop_succ_count (upd : String → Except String String) :
    ∀ (hosts : List String) (s f : Nat) (le : Option String),
      (batchLoop upd hosts s f le).1 = s + hosts.countP (fun h => !updFails upd h) := by
  intro hosts
  induction hosts with
  | nil => intro s f le; simp [batchLoop]
  | cons h t ih =>
    intro s f le
    rcases hr : upd h with e | fp <;>
      (simp [batchLoop, hr, ih, List.countP_cons, updFails]; try omega)

/-- The batch loop prints one line per host, in list order, continuing
past failures. -/
theorem batchLoop_reports (upd : String → Except String String) :
    ∀ (hosts : List String) (s f : Nat) (le : Option String),
      (batchLoop upd hosts s f le).2.2.2 =
        hosts.map (fun h =>
          match upd h with
          | .error _ => "❌ " ++ h ++ ": Host key update failed"
          | .ok fp => "✅ " ++ h ++ ": Host key updated (" ++ fp ++ ")") := by
  intro hosts
  induction hosts with
  | nil => intro s f le; rfl
  | cons h t ih =>
    intro s f le
    rcases hr : upd h with e | fp <;> simp [batchLoop, hr, ih]

/-- Concrete host key updater with one failing and one succeeding host,
for the counterexample. -/
def c2upd : String → Except String String :=
  fun h => if h = "h1" then .error "boom" else .ok "fp"

/-- C2 counterexample: with hosts h1 and h2 where only h1 fails, the
batch host key command returns failure even though not every host
failed, refuting that the command fails only when all hosts failed. -/
theorem C2_counterexample :
    c2upd "h1" = .error "boom"
    ∧ c2upd "h2" = .ok "fp"
    ∧ (batchUpdateHostKeys ["h1", "h2"] c2upd).1 =
        .error "some host key updates failed: boom" := by
  refine ⟨rfl, rfl, ?_⟩
  decide

/-- C2 (amended): hosts are processed strictly sequentially in list
order and every per host failure is reported while iteration continues;
the batch host key rotation command returns failure exactly when at
least one host failed, with the distinct all failed error when every
host failed, and the multi host updates command always returns success
because its lastErr variable is never assigned. -/
theorem C2_batch_loops :
    (∀ (hosts : List String) (runHost : String → Except String Unit),
      (updatesCommandAction hosts runHost).1 = .ok ())
    ∧ (∀ (hosts : List String) (runHost : String → Except String Unit),
        (updatesCommandAction hosts runHost).2 =
          hosts.filterMap (fun h =>
            match runHost h with
            | .error _ => some ("❓ " ++ h ++ " is unreachable")
            | .ok _ => none))
    ∧ (∀ (hosts : List String) (upd : String → Except String String),
        (batchUpdateHostKeys hosts upd).2 =
          hosts.map (fun h =>
            match upd h with
            | .error _ => "❌ " ++ h ++ ": Host key update failed"
            | .ok fp => "✅ " ++ h ++ ": Host key updated (" ++ fp ++ ")"))
    ∧ (∀ (hosts : List String) (upd : String → Except String String),
        (batchUpdateHostKeys hosts upd).1 = .ok () ↔ ∀ h ∈ hosts, updFails upd h = false)
    ∧ (∀ (hosts : List String) (upd : String → Except String String),
        hosts ≠ [] → (∀ h ∈ hosts, updFails upd h = true) →
        (batchUpdateHostKeys hosts upd).1 = .error "all host key updates failed") := by
  refine ⟨?_, ?_, ?_, ?_, ?_⟩
  · intro hosts runHost
    exact updatesHostLoop_fst runHost hosts (.ok ())
  · intro hosts runHost
    exact updatesHostLoop_snd runHost hosts (.ok ())
  · intro hosts upd
    exact batchLoop_reports upd hosts 0 0 none
  · intro hosts upd
    unfold batchUpdateHostKeys batchResult
    rw [batchLoop_fail_count]
    simp only [Nat.zero_add]
    constructor
    · intro hok
      by_cases hcount : hosts.countP (updFails upd) = 0
      · intro h hm
        have := (List.countP_eq_zero).mp hcount h hm
        cases he : updFails upd h
        · rfl
        · rw [he] at this
          exact absurd rfl this
      · exfalso
        by_cases h1 : 0 < hosts.countP (updFails upd) ∧ (batchLoop upd hosts 0 0 none).1 = 0
        · rw [if_pos h1] at hok
          exact Except.noConfusion hok
        · rw [if_neg h1, if_pos (by omega)] at hok
          exact Except.noConfusion hok
    · intro hall
      have hcount : hosts.countP (updFails upd) = 0 :=
        List.countP_eq_zero.mpr (fun h hm => by rw [hall h hm]; exact Bool.false_ne_true)
      rw [hcount]
      simp
  · intro hosts upd hne hall
    unfold batchUpdateHostKeys batchResult
    rw [batchLoop_fail_count, batchLoop_succ_count]
    simp only [Nat.zero_add]
    have hcount : hosts.countP (updFails upd) = hosts.length :=
      List.countP_eq_length.mpr hall
    have hzero : hosts.countP (fun h => !updFails upd h) = 0 :=
      List.countP_eq_zero.mpr (fun h hm => by simp [hall h hm])
    have hlen : 0 < hosts.length := List.length_pos.mpr hne
    rw [if_pos ⟨by omega, by omega⟩]

/-- Witness for C2 at a concrete host list. -/
theorem C2_batch_loops_witness :
    (batchUpdateHostKeys ["h1", "h2"] (fun _ => .error "down")).1 =
      .error "all host key updates failed" :=
  C2_batch_loops.2.2.2.2 ["h1", "h2"] (fun _ => .error "down") (by decide)
    (fun h _ => rfl)

/-! ## C3 -/

/-- C3: each fatal enrollment step failure stops the sequence with that
error (connect, pre enroll script, identity set, export, reconnect, post
enroll script), the updates step outcome never changes the result, and
the command Action nevertheless returns success after a failed
enrollment because its return statement reads the outer shadowed err
variable. -/
theorem C3_enroll_first_fatal :
    (∀ (e : String) (pre ident : Except String Unit) (su : Bool) (ur : Except String Unit)
        (se : Bool) (er : Except String Unit) (rc : Except String Session)
        (post : Except String Unit),
      enroll (.error e) pre ident su ur se er rc post =
        .error ("failed to connect to router: " ++ e))
    ∧ (∀ (c : Session) (e : String) (ident : Except String Unit) (su : Bool)
        (ur : Except String Unit) (se : Bool) (er : Except String Unit)
        (rc : Except String Session) (post : Except String Unit),
      enroll (.ok c) (.error e) ident su ur se er rc post =
        .error ("failed to apply pre-enroll configuration file: " ++ e))
    ∧ (∀ (c : Session) (e : String) (su : Bool) (ur : Except String Unit) (se : Bool)
        (er : Except String Unit) (rc : Except String Session) (post : Except String Unit),
      enroll (.ok c) (.ok ()) (.error e) su ur se er rc post =
        .error ("failed to set router identity: " ++ e))
    ∧ (∀ (c : Session) (su : Bool) (ur ur2 : Except String Unit) (se : Bool)
        (er : Except String Unit) (rc : Except String Session) (post : Except String Unit),
      enroll (.ok c) (.ok ()) (.ok ()) su ur se er rc post =
        enroll (.ok c) (.ok ()) (.ok ()) su ur2 se er rc post)
    ∧ (∀ (c : Session) (su : Bool) (ur : Except String Unit) (e : String)
        (rc : Except String Session) (post : Except String Unit),
      enroll (.ok c) (.ok ()) (.ok ()) su ur false (.error e) rc post =
        .error ("failed to export configuration: " ++ e))
    ∧ (∀ (c : Session) (su : Bool) (ur : Except String Unit) (e : String)
        (post : Except String Unit),
      enroll (.ok c) (.ok ()) (.ok ()) su ur false (.ok ()) (.error e) post =
        .error ("failed to reconnect after export: " ++ e))
    ∧ (∀ (c : Session) (su : Bool) (ur : Except String Unit) (e : String),
      enroll (.ok c) (.ok ()) (.ok ()) su ur true (.ok ()) (.ok ⟨0⟩) (.error e) =
        .error ("failed to apply post-enroll configuration file: " ++ e))
    ∧ (∀ (r : Except String Unit) (e : String), r = .error e →
        enrollCommandAction r = (.ok (), ["❌ Enrollment failed"]))
    ∧ enrollCommandAction (.error "failed to connect to router: boom") =
        (.ok (), ["❌ Enrollment failed"]) := by
  refine ⟨?_, ?_, ?_, ?_, ?_, ?_, ?_, ?_, rfl⟩
  · intro e pre ident su ur se er rc post
    rfl
  · intro c e ident su ur se er rc post
    rfl
  · intro c e su ur se er rc post
    rfl
  · intro c su ur ur2 se er rc post
    cases su <;> rcases ur with e | u <;> rcases ur2 with e2 | u2 <;> rfl
  · intro c su ur e rc post
    cases su <;> rcases ur with e2 | u <;> rfl
  · intro c su ur e post
    cases su <;> rcases ur with e2 | u <;> rfl
  · intro c su ur e
    cases su <;> rcases ur with e2 | u <;> rfl
  · intro r e hr
    rw [hr]
    rfl

/-- Witness for C3 at a concrete failed enrollment result. -/
theorem C3_enroll_first_fatal_witness :
    enrollCommandAction (.error "failed to set router identity: denied") =
      (.ok (), ["❌ Enrollment failed"]) :=
  C3_enroll_first_fatal.2.2.2.2.2.2.2.1 (.error "failed to set router identity: denied")
    "failed to set router identity: denied" rfl

end Autopilot
